import Mathlib

/-!
Verification of Abe/DataStore.py (Mediterraneancoin Abe fork).

This file shallowly embeds the parts of DataStore.py that the specification
talks about: the binary/hash value transforms chosen by _set_sql_flavour,
the reconnect-and-retry statement execution of _execute and sql, the ddl
commit behaviour, reconnect, the counter-table sequence allocator, the
max_varchar binary search, and the MerkleRootMismatch condition.

Byte strings are lists of bytes (Fin 256); Python None is modelled by
Option; a raised exception is modelled by Except.error.
-/

set_option maxHeartbeats 1000000

abbrev ByteStr := List (Fin 256)

/-- def rev(x): return x[::-1] -/
def rev (x : ByteStr) : ByteStr := x.reverse

/-- Lowercase hex digit of a nibble value, as produced by Python's
str.encode with codec hex: code point 48 plus d for digits below ten,
code point 87 plus d (the lowercase letters) for the rest. -/
def hexDigit (d : Nat) : Char :=
  if d < 10 then Char.ofNat (48 + d) else Char.ofNat (87 + d)

/-- Value of one hex digit character by code point ranges (decimal digits,
lowercase letters, uppercase letters); none when the character is not a
hex digit, in which case decoding raises, as Python's decode with codec
hex does. -/
def hexVal (c : Char) : Option (Fin 16) :=
  if h : 48 ≤ c.toNat ∧ c.toNat ≤ 57 then some ⟨c.toNat - 48, by omega⟩
  else if h2 : 97 ≤ c.toNat ∧ c.toNat ≤ 102 then
    some ⟨c.toNat - 87, by omega⟩
  else if h3 : 65 ≤ c.toNat ∧ c.toNat ≤ 70 then
    some ⟨c.toNat - 55, by omega⟩
  else none

/-- Python x.encode with codec hex: two lowercase digits per byte. -/
def hexEncode : ByteStr → List Char
  | [] => []
  | b :: rest => hexDigit (b.val / 16) :: hexDigit (b.val % 16) :: hexEncode rest

/-- Python x.decode with codec hex: parses pairs of hex digits, failing on a
non-digit or an odd-length input. -/
def hexDecode : List Char → Option ByteStr
  | [] => some []
  | [_] => none
  | c1 :: c2 :: rest =>
    (hexVal c1).bind fun h =>
    (hexVal c2).bind fun l =>
    (hexDecode rest).map fun bs =>
      Fin.mk (h.val * 16 + l.val)
        (by have h1 := h.isLt; have h2 := l.isLt; omega) :: bs

theorem hexVal_hexDigit (d : Nat) (hd : d < 16) :
    hexVal (hexDigit d) = some ⟨d, hd⟩ := by
  interval_cases d <;> rfl

theorem hexDecode_hexEncode (x : ByteStr) : hexDecode (hexEncode x) = some x := by
  induction x with
  | nil => rfl
  | cons b rest ih =>
    have hb : b.val / 16 < 16 := by have := b.isLt; omega
    have hl : b.val % 16 < 16 := Nat.mod_lt _ (by omega)
    have h1 := hexVal_hexDigit (b.val / 16) hb
    have h2 := hexVal_hexDigit (b.val % 16) hl
    simp only [hexEncode, hexDecode]
    rw [h1, h2, ih]
    simp only [Option.some_bind, Option.map_some']
    exact congrArg some (congrArg (fun y => y :: rest)
      (Fin.ext (show b.val / 16 * 16 + b.val % 16 = b.val by omega)))

/-- The binary_type configuration values accepted by _set_sql_flavour.
cfg_none stands for the Python value None. -/
inductive BinaryType
  | cfg_none | str | binary | buffer | bytearray | pg_bytea | hex
deriving DecidableEq

/-- Python buffer(x) wrapper used under binary_type buffer and pg-bytea. -/
structure Buf where
  data : ByteStr
deriving DecidableEq

/-- Python bytearray(x) wrapper used under binary_type bytearray. -/
structure ByteArr where
  data : ByteStr
deriving DecidableEq

/-- The Python type of a value as stored in the database under each
binary_type: a plain byte string, a buffer or bytearray wrapper, or hex
text. -/
def StoredTy : BinaryType → Type
  | .buffer | .pg_bytea => Buf
  | .bytearray => ByteArr
  | .hex => List Char
  | _ => ByteStr

/-- binin as assigned by _set_sql_flavour: identity for None, str and
binary; to_btype for buffer, bytearray and pg-bytea; to_hex for hex.
None (SQL NULL) passes through in every branch that guards it. -/
def binin : (bt : BinaryType) → Option ByteStr → Option (StoredTy bt)
  | .cfg_none, x | .str, x | .binary, x => x
  | .buffer, x | .pg_bytea, x => x.map Buf.mk
  | .bytearray, x => x.map ByteArr.mk
  | .hex, x => x.map hexEncode

/-- binout as assigned by _set_sql_flavour: identity, to_str, or from_hex.
from_hex raises on text that is not valid hex, modelled by Except.error. -/
def binout : (bt : BinaryType) → Option (StoredTy bt) → Except Unit (Option ByteStr)
  | .cfg_none, x | .str, x | .binary, x => .ok x
  | .buffer, x | .pg_bytea, x => .ok (x.map Buf.data)
  | .bytearray, x => .ok (x.map ByteArr.data)
  | .hex, none => .ok none
  | .hex, some s =>
    match hexDecode s with
    | some b => .ok (some b)
    | none => .error ()

/-- hashin as assigned by _set_sql_flavour: rev, to_btype of rev, or
to_hex_rev, applied to a present (non-NULL) hash value. -/
def hashin : (bt : BinaryType) → ByteStr → StoredTy bt
  | .cfg_none, x | .str, x | .binary, x => rev x
  | .buffer, x | .pg_bytea, x => Buf.mk (rev x)
  | .bytearray, x => ByteArr.mk (rev x)
  | .hex, x => hexEncode (rev x)

/-- hashout as assigned by _set_sql_flavour: rev, or from_hex_rev; the
latter raises on invalid hex, modelled by Except.error. -/
def hashout : (bt : BinaryType) → StoredTy bt → Except Unit ByteStr
  | .cfg_none, x | .str, x | .binary, x => .ok (rev x)
  | .buffer, x | .pg_bytea, x => .ok (rev x.data)
  | .bytearray, x => .ok (rev x.data)
  | .hex, s =>
    match hexDecode s with
    | some b => .ok (rev b)
    | none => .error ()

/-- Claim C1: for every supported binary representation negotiated by the
dialect layer and every byte string x, including the empty string and NULL,
the paired value transforms satisfy binout of binin of x equals x. -/
theorem binout_binin_roundtrip (bt : BinaryType) (x : Option ByteStr) :
    binout bt (binin bt x) = .ok x := by
  cases bt <;> cases x <;>
    simp [binin, binout, hexDecode_hexEncode, Option.map]

/-- Claim C2: for every supported binary representation and every 32-byte
value h, the hash transforms satisfy hashout of hashin of h equals h: the
byte reversal applied on encode is undone exactly once on decode. -/
theorem hashout_hashin_roundtrip (bt : BinaryType) (h : ByteStr)
    (hlen : h.length = 32) :
    hashout bt (hashin bt h) = .ok h := by
  cases bt <;>
    simp [hashin, hashout, hexDecode_hexEncode, rev, List.reverse_reverse]

/-- Claim C2 witness: the round trip at a concrete 32-byte value under the
hex representation. -/
theorem hashout_hashin_roundtrip_witness :
    (List.replicate 32 (7 : Fin 256)).length = 32 ∧
      hashout .hex (hashin .hex (List.replicate 32 (7 : Fin 256))) =
        .ok (List.replicate 32 (7 : Fin 256)) :=
  ⟨by decide,
   hashout_hashin_roundtrip .hex (List.replicate 32 (7 : Fin 256)) (by decide)⟩

/-- An error raised by the DB-API driver while executing a statement.
retriable is true for the classes _execute catches: OperationalError,
InternalError and ProgrammingError; code distinguishes error values. -/
structure ExecError where
  retriable : Bool
  code : Nat
deriving DecidableEq

/-- The backend as _execute sees it: the outcome of cursor.execute on its
nth try of the statement, and whether store.reconnect completes. -/
structure Backend where
  attempt : Nat → Except ExecError Unit
  reconnectOk : Bool

/-- _execute as in DataStore.py: run the statement; on a caught error
class, if a transaction is open or auto_reconnect is off, re-raise the
original error; otherwise reconnect (raising the original error when
reconnect itself fails) and run the statement a second time, whose outcome
propagates uncaught. -/
def execute_stmt (bk : Backend) (in_transaction auto_reconnect : Bool) :
    Except ExecError Unit :=
  match bk.attempt 0 with
  | .ok u => .ok u
  | .error e =>
    if e.retriable = false then .error e
    else if in_transaction || !auto_reconnect then .error e
    else if bk.reconnectOk = false then .error e
    else bk.attempt 1

/-- A backend whose first try fails with code 1 and whose retry fails with
a different error, code 2. -/
def bkRetryTwice : Backend :=
  { attempt := fun i => if i = 0 then .error ⟨true, 1⟩ else .error ⟨true, 2⟩
    reconnectOk := true }

/-- Claim C3 counterexample: with no transaction open and auto-reconnect
enabled, when the first try fails with error code 1 and the retry fails
with error code 2, _execute propagates the retry error, not the original
error, so the claim that the original error propagates after a failed
retry is false. -/
theorem execute_retry_error_counterexample :
    bkRetryTwice.attempt 0 = .error ⟨true, 1⟩ ∧
    execute_stmt bkRetryTwice false true = .error ⟨true, 2⟩ ∧
    execute_stmt bkRetryTwice false true ≠ .error ⟨true, 1⟩ := by
  refine ⟨rfl, rfl, fun hc => ?_⟩
  rw [show execute_stmt bkRetryTwice false true = Except.error ⟨true, 2⟩
    from rfl] at hc
  simp at hc

/-- Claim C3 as amended: on a retriable error with no open transaction,
auto-reconnect enabled and a working reconnect, _execute retries exactly
once and the retry outcome (its error, if it fails) propagates; with a
transaction open or auto-reconnect disabled, or on a non-retriable error,
or when reconnect fails, the original error propagates with no retry. -/
theorem execute_retry_behavior (bk : Backend) (inTx autoRe : Bool)
    (e : ExecError) (h0 : bk.attempt 0 = .error e) :
    (e.retriable = true → inTx = false → autoRe = true →
      bk.reconnectOk = true →
      execute_stmt bk inTx autoRe = bk.attempt 1) ∧
    (inTx = true ∨ autoRe = false → execute_stmt bk inTx autoRe = .error e) ∧
    (e.retriable = false → execute_stmt bk inTx autoRe = .error e) ∧
    (bk.reconnectOk = false → execute_stmt bk inTx autoRe = .error e) := by
  refine ⟨?_, ?_, ?_, ?_⟩ <;>
    · intro h
      first
      | (intro h2 h3 h4
         simp [execute_stmt, h0, h, h2, h3, h4])
      | (rcases h with h | h <;> cases e <;>
          simp_all [execute_stmt, h0])
      | simp [execute_stmt, h0, h]
      | (cases e <;> simp_all [execute_stmt, h0])

/-- Claim C3 amended witness: the retry and no-retry branches at the
concrete backend bkRetryTwice. -/
theorem execute_retry_behavior_witness :
    execute_stmt bkRetryTwice false true = bkRetryTwice.attempt 1 ∧
    execute_stmt bkRetryTwice true true = .error ⟨true, 1⟩ := by
  have h1 := execute_retry_behavior bkRetryTwice false true ⟨true, 1⟩ rfl
  have h2 := execute_retry_behavior bkRetryTwice true true ⟨true, 1⟩ rfl
  exact ⟨h1.1 rfl rfl rfl rfl, h2.2.1 (Or.inl rfl)⟩

/-- The transaction-related store state that sql, commit and ddl touch. -/
structure StoreState where
  in_transaction : Bool
  auto_reconnect : Bool
deriving DecidableEq

/-- sql as in DataStore.py: transform and execute the statement through
_execute; whether it returns or raises, the finally clause sets
in_transaction to True. -/
def sql_run (bk : Backend) (st : StoreState) :
    Except ExecError Unit × StoreState :=
  (execute_stmt bk st.in_transaction st.auto_reconnect,
   { st with in_transaction := true })

/-- commit as in DataStore.py: conn.commit, then in_transaction False. -/
def commit_run (st : StoreState) : StoreState :=
  { st with in_transaction := false }

/-- A backend used to witness claim C10: the statement always fails with a
retriable error. -/
def bkAlwaysFail : Backend :=
  { attempt := fun _ => .error ⟨true, 3⟩, reconnectOk := true }

/-- Claim C10: after every call to sql, normal or raising, in_transaction
is true; commit resets it to false; and while in_transaction is true every
failing statement propagates its first error with no reconnect-and-retry. -/
theorem sql_in_transaction_spec (bk : Backend) (st : StoreState) :
    (sql_run bk st).2.in_transaction = true ∧
    (commit_run (sql_run bk st).2).in_transaction = false ∧
    (∀ (bk2 : Backend) (e : ExecError), bk2.attempt 0 = .error e →
      (sql_run bk2 (sql_run bk st).2).1 = .error e) := by
  refine ⟨rfl, rfl, fun bk2 e h0 => ?_⟩
  show execute_stmt bk2 true st.auto_reconnect = .error e
  cases hr : e.retriable <;> simp [execute_stmt, h0, hr]

/-- Claim C10 witness: at a concrete failing backend and a state with no
open transaction, the flag is true after sql, commit clears it, and the
statement after sql gets no retry. -/
theorem sql_in_transaction_spec_witness :
    (sql_run bkAlwaysFail ⟨false, true⟩).2.in_transaction = true ∧
    (commit_run (sql_run bkAlwaysFail ⟨false, true⟩).2).in_transaction
      = false ∧
    (sql_run bkAlwaysFail
      (sql_run bkAlwaysFail ⟨false, true⟩).2).1 = .error ⟨true, 3⟩ := by
  have h := sql_in_transaction_spec bkAlwaysFail ⟨false, true⟩
  exact ⟨h.1, h.2.1, h.2.2 bkAlwaysFail ⟨true, 3⟩ rfl⟩

/-- Outcome of the tail of ddl in DataStore.py, after the statement has
executed: whether store.commit was called explicitly, and the resulting
in_transaction flag. -/
structure DdlOutcome where
  explicitCommit : Bool
  in_transaction : Bool
deriving DecidableEq

/-- The commit behaviour at the end of ddl, keyed on the persisted
configuration string ddl_implicit_commit: when it equals the string false
the code calls store.commit (an explicit commit, clearing the flag);
otherwise it only clears in_transaction, the backend having committed the
DDL implicitly. -/
def ddl_commit (ddl_implicit_commit : String) : DdlOutcome :=
  if ddl_implicit_commit = "false" then
    { explicitCommit := true, in_transaction := false }
  else
    { explicitCommit := false, in_transaction := false }

/-- Claim C6 counterexample: the configuration value true means the
dialect auto-commits DDL. The claim predicts an explicit commit exactly in
the auto-commit case and an open transaction in the non-auto-commit case;
the code does the opposite of the first and commits in the second. -/
theorem ddl_commit_counterexample :
    ¬ ((ddl_commit "true").explicitCommit = true ∧
       (ddl_commit "false").explicitCommit = false ∧
       (ddl_commit "false").in_transaction = true) := by
  decide

/-- Claim C6 as amended: the explicit commit is issued exactly in the
non-auto-commit case (configuration string false); in the auto-commit case
the code merely clears the transaction flag, the backend having already
committed; in both cases the DDL statement does not remain part of an
open transaction. -/
theorem ddl_commit_behavior (s : String) :
    (ddl_commit s).explicitCommit = decide (s = "false") ∧
    (ddl_commit s).in_transaction = false := by
  by_cases hs : s = "false" <;> simp [ddl_commit, hs]

/-- The environment reconnect runs in: whether closing the old cursor or
the old connection raises, and the outcome of opening a fresh connection
in init_conn. -/
structure ReconnectEnv where
  cursorCloseFails : Bool
  connCloseFails : Bool
  connectResult : Except Nat Unit

/-- Python try f() except: pass around a teardown step. -/
def tryIgnore (r : Except Nat Unit) : Unit :=
  match r with
  | .ok _ => ()
  | .error _ => ()

/-- store.cursor.close during reconnect teardown. -/
def closeCursor (env : ReconnectEnv) : Except Nat Unit :=
  if env.cursorCloseFails then .error 1 else .ok ()

/-- store.conn.close during reconnect teardown. -/
def closeConn (env : ReconnectEnv) : Except Nat Unit :=
  if env.connCloseFails then .error 2 else .ok ()

/-- init_conn as in DataStore.py: open a connection and cursor and set
in_transaction to False; opening the connection can raise. The ok value
is the new in_transaction flag. -/
def init_conn (env : ReconnectEnv) : Except Nat Bool :=
  match env.connectResult with
  | .ok _ => .ok false
  | .error e => .error e

/-- reconnect as in DataStore.py: close the old cursor and connection,
swallowing any error from either close, then init_conn. -/
def reconnect (env : ReconnectEnv) : Except Nat Bool :=
  let _ := tryIgnore (closeCursor env)
  let _ := tryIgnore (closeConn env)
  init_conn env

/-- Claim C7 counterexample: when opening the fresh connection fails,
reconnect raises that error, so reconnect does not never raise. -/
theorem reconnect_counterexample :
    reconnect ⟨false, false, .error 7⟩ = .error 7 := by
  rfl

/-- Claim C7 as amended: errors raised while closing the old cursor or old
connection are swallowed, so the outcome of reconnect depends only on
opening the fresh connection; when that succeeds, reconnect completes,
installing a fresh connection and cursor with no transaction open.
reconnect raises only when opening the fresh connection fails. -/
theorem reconnect_behavior (env env2 : ReconnectEnv)
    (hsame : env.connectResult = env2.connectResult) :
    reconnect env = reconnect env2 ∧
    (env.connectResult = .ok () → reconnect env = .ok false) := by
  constructor
  · simp [reconnect, init_conn, hsame]
  · intro hok
    simp [reconnect, init_conn, hok]

/-- Claim C7 amended witness: with both closes failing, reconnect equals
reconnect with neither failing, and completes. -/
theorem reconnect_behavior_witness :
    reconnect ⟨true, true, .ok ()⟩ = reconnect ⟨false, false, .ok ()⟩ ∧
    reconnect ⟨true, true, .ok ()⟩ = .ok false := by
  have h := reconnect_behavior ⟨true, true, .ok ()⟩ ⟨false, false, .ok ()⟩ rfl
  exact ⟨h.1, h.2 rfl⟩

/-- Result of _new_id_update: the allocated identifier, or the raised
exception when no abe_sequences row exists for the key. -/
inductive AllocResult
  | ok (v : Int)
  | missing
deriving DecidableEq

/-- _new_id_update as in DataStore.py, with its unbounded while-loop given
explicit fuel (none means the fuel ran out, not an outcome of the code).
readRow i is the nextid read from abe_sequences on the ith loop iteration
(none when no row exists, which raises); casOk i tells whether the
conditional UPDATE of that iteration touched exactly one row. -/
def new_id_update (readRow : Nat → Option Int) (casOk : Nat → Bool) :
    Nat → Nat → Option AllocResult
  | _, 0 => none
  | i, fuel + 1 =>
    match readRow i with
    | none => some .missing
    | some v =>
      if casOk i then some (.ok v)
      else new_id_update readRow casOk (i + 1) fuel

theorem new_id_update_shift (readRow : Nat → Option Int)
    (casOk : Nat → Bool) :
    ∀ n i fuel, n < fuel →
    (∀ j, j < n → (∃ u, readRow (i + j) = some u) ∧ casOk (i + j) = false) →
    ∀ v, readRow (i + n) = some v → casOk (i + n) = true →
    new_id_update readRow casOk i fuel = some (.ok v) := by
  intro n
  induction n with
  | zero =>
    intro i fuel hfuel _ v hv hcas
    obtain ⟨f, rfl⟩ := Nat.exists_eq_add_of_lt hfuel
    simp only [Nat.add_zero] at hv hcas
    simp [new_id_update, hv, hcas]
  | succ n ih =>
    intro i fuel hfuel hrace v hv hcas
    obtain ⟨f, rfl⟩ := Nat.exists_eq_add_of_lt hfuel
    obtain ⟨⟨u, hu⟩, hc0⟩ := hrace 0 (Nat.succ_pos n)
    simp only [Nat.add_zero] at hu hc0
    have hstep : new_id_update readRow casOk i (n + 1 + f + 1) =
        new_id_update readRow casOk (i + 1) (n + 1 + f) := by
      simp [new_id_update, hu, hc0]
    rw [hstep]
    refine ih (i + 1) (n + 1 + f) (by omega) ?_ v ?_ ?_
    · intro j hj
      have := hrace (j + 1) (by omega)
      simpa [Nat.add_assoc, Nat.add_comm 1 j] using this
    · simpa [Nat.add_assoc, Nat.add_comm 1 n] using hv
    · simpa [Nat.add_assoc, Nat.add_comm 1 n] using hcas

/-- Claim C4: under the counter-table strategy, allocate reads the current
nextid, then issues a conditional increment that succeeds only when the
row still holds that value; on success (row count 1) it returns the value
it read; a lost race is retried from a fresh read and never surfaced; a
key with no row raises. -/
theorem new_id_update_spec (readRow : Nat → Option Int) (casOk : Nat → Bool)
    (n fuel : Nat) (v : Int) (hfuel : n < fuel)
    (hrace : ∀ j, j < n → (∃ u, readRow j = some u) ∧ casOk j = false)
    (hread : readRow n = some v) (hcas : casOk n = true) :
    new_id_update readRow casOk 0 fuel = some (.ok v) ∧
    (∀ rr2 : Nat → Option Int, rr2 0 = none →
      ∀ g : Nat, new_id_update rr2 casOk 0 (g + 1) = some .missing) := by
  constructor
  · have := new_id_update_shift readRow casOk n 0 fuel hfuel
    simp only [Nat.zero_add] at this
    exact this hrace v hread hcas
  · intro rr2 h0 g
    simp [new_id_update, h0]

/-- Claim C4 witness: one lost race on iteration 0 (another process moved
nextid from 4), then a successful compare-and-swap returning the value 5
read on iteration 1; and a missing row raises. -/
theorem new_id_update_spec_witness :
    new_id_update (fun i => some (4 + (i : Int))) (fun i => decide (i = 1))
      0 3 = some (.ok 5) ∧
    (∀ rr2 : Nat → Option Int, rr2 0 = none →
      ∀ g : Nat, new_id_update rr2 (fun i => decide (i = 1)) 0 (g + 1) =
        some .missing) := by
  have h := new_id_update_spec (fun i => some (4 + (i : Int)))
    (fun i => decide (i = 1)) 1 3 5 (by omega)
    (fun j hj => by
      have hj0 : j = 0 := by omega
      subst hj0
      exact ⟨⟨4, by norm_num⟩, by decide⟩)
    (by norm_num) (by decide)
  exact h

/-- _get_sequence_initial_value as in DataStore.py: one more than the
maximum existing primary key in the table named by the key, or 1 when the
table is empty (MAX returns NULL). -/
def get_sequence_initial_value (maxId : Option Int) : Int :=
  match maxId with
  | none => 1
  | some m => m + 1

/-- The abe_sequences row _create_sequence_update inserts: nextid seeded
from _get_sequence_initial_value. -/
def create_sequence_update_row (maxId : Option Int) : Option Int :=
  some (get_sequence_initial_value maxId)

/-- The START WITH value of the CREATE SEQUENCE statement issued by
_create_sequence (used by the oracle, nvf, postgres and db2 strategies),
also seeded from _get_sequence_initial_value. -/
def create_sequence_start_with (maxId : Option Int) : Int :=
  get_sequence_initial_value maxId

/-- The AUTO_INCREMENT value of the helper table created by
_create_sequence_mysql, also seeded from _get_sequence_initial_value. -/
def create_sequence_mysql_start (maxId : Option Int) : Int :=
  get_sequence_initial_value maxId

/-- Claim C5: create seeds the sequence at the maximum pre-existing
primary key plus one, or at 1 when the table is empty, in every
allocation strategy, so that the next allocate under the counter-table
strategy returns M + 1 when the maximum pre-existing key is M. -/
theorem sequence_seed_spec (M : Int) :
    get_sequence_initial_value (some M) = M + 1 ∧
    get_sequence_initial_value none = 1 ∧
    create_sequence_update_row (some M) = some (M + 1) ∧
    create_sequence_start_with (some M) = M + 1 ∧
    create_sequence_mysql_start (some M) = M + 1 ∧
    new_id_update (fun _ => create_sequence_update_row (some M))
      (fun _ => true) 0 1 = some (.ok (M + 1)) := by
  refine ⟨rfl, rfl, rfl, rfl, rfl, ?_⟩
  simp [new_id_update, create_sequence_update_row, get_sequence_initial_value]

/-- The MerkleRootMismatch condition of DataStore.py, a subclass of
InvalidBlock: it stores exactly the block hash and the ordered list of
transaction hashes passed to its constructor. -/
structure MerkleRootMismatch where
  block_hash : ByteStr
  tx_hashes : List ByteStr
deriving DecidableEq

/-- The message rendered by MerkleRootMismatch, as in its Python method:
the fixed text followed by the hex encoding of the reversed block hash. -/
def MerkleRootMismatch.message (ex : MerkleRootMismatch) : List Char :=
  String.toList
    "Block header Merkle root does not match its transactions. block hash="
    ++ hexEncode (rev ex.block_hash)

/-- Modelled from the spec: the Merkle-root validation performed when a
block's transaction list is assembled is not part of src (only the
MerkleRootMismatch class is); the spec states that the computed Merkle
root over the ordered transaction-hash list must equal the block's
declared root, and that a mismatch raises MerkleRootMismatch carrying the
block hash and the transaction-hash list, surfaced to the caller. -/
def check_merkle_root (computedRoot declaredRoot blockHash : ByteStr)
    (txHashes : List ByteStr) : Except MerkleRootMismatch Unit :=
  if computedRoot = declaredRoot then .ok ()
  else .error ⟨blockHash, txHashes⟩

/-- Claim C9: when the computed Merkle root differs from the declared
root, a distinct invalid-block condition is raised carrying exactly that
block's hash and the full ordered transaction-hash list, its rendering
ends with that block's hash in reversed hex, and the condition is the
surfaced outcome, never retried. -/
theorem merkle_mismatch_spec (computedRoot declaredRoot blockHash : ByteStr)
    (txHashes : List ByteStr) (hne : computedRoot ≠ declaredRoot) :
    check_merkle_root computedRoot declaredRoot blockHash txHashes =
      .error ⟨blockHash, txHashes⟩ ∧
    List.IsSuffix (hexEncode (rev blockHash))
      (MerkleRootMismatch.mk blockHash txHashes).message := by
  constructor
  · simp [check_merkle_root, hne]
  · exact ⟨String.toList
      "Block header Merkle root does not match its transactions. block hash=",
      rfl⟩

/-- Claim C9 witness: at concrete distinct roots, the model raises the
condition with that block hash and transaction list. -/
theorem merkle_mismatch_spec_witness :
    check_merkle_root [1] [2] [3] [[4], [5]] = .error ⟨[3], [[4], [5]]⟩ ∧
    List.IsSuffix (hexEncode (rev [3]))
      (MerkleRootMismatch.mk [3] [[4], [5]]).message := by
  exact merkle_mismatch_spec [1] [2] [3] [[4], [5]] (by decide)

/-- The loop of configure_max_varchar in DataStore.py: probe the width
mid (create a two-column VARCHAR(mid) table, insert x and y, read them
back; probe mid is true when the round trip succeeds); on success set lo
to mid, otherwise set hi to mid; stop with result lo when lo + 1 equals
hi, else continue at the midpoint. The fuel argument only bounds the
unbounded Python while-loop (none means fuel ran out); the returned pair
is the final lo and the number of probes performed. -/
def cmvLoop (probe : Nat → Bool) : Nat → Nat → Nat → Nat → Option (Nat × Nat)
  | 0, _, _, _ => none
  | fuel + 1, lo, hi, mid =>
    if probe mid then
      if mid + 1 = hi then some (mid, 1)
      else
        match cmvLoop probe fuel mid hi ((mid + hi) / 2) with
        | none => none
        | some (r, n) => some (r, n + 1)
    else
      if lo + 1 = mid then some (lo, 1)
      else
        match cmvLoop probe fuel lo mid ((lo + mid) / 2) with
        | none => none
        | some (r, n) => some (r, n + 1)

/-- configure_max_varchar as in DataStore.py: lo starts at 0, hi at 2 to
the 32, and the first probed width is hi minus 1; the result is the final
value stored into the max_varchar configuration entry together with the
number of probes. -/
def configure_max_varchar (probe : Nat → Bool) (fuel : Nat) :
    Option (Nat × Nat) :=
  cmvLoop probe fuel 0 (2 ^ 32) (2 ^ 32 - 1)

theorem cmvLoop_sound (probe : Nat → Bool) :
    ∀ k lo hi fuel, lo + 2 ≤ hi → hi - lo ≤ 2 ^ k → k ≤ fuel →
    (lo = 0 ∨ probe lo = true) → (hi = 2 ^ 32 ∨ probe hi = false) →
    ∃ r n, cmvLoop probe fuel lo hi ((lo + hi) / 2) = some (r, n) ∧
      n ≤ k ∧ lo ≤ r ∧ r + 1 ≤ hi ∧
      (r = 0 ∨ probe r = true) ∧ (r + 1 = 2 ^ 32 ∨ probe (r + 1) = false) := by
  intro k
  induction k with
  | zero =>
    intro lo hi fuel h2 hsz hk hlo hhi
    simp only [pow_zero] at hsz
    omega
  | succ k ih =>
    intro lo hi fuel h2 hsz hk hlo hhi
    obtain ⟨f, rfl⟩ : ∃ f, fuel = f + 1 := ⟨fuel - 1, by omega⟩
    have hmid1 : lo < (lo + hi) / 2 := by omega
    have hmid2 : (lo + hi) / 2 < hi := by omega
    have hpow : (2 : Nat) ^ (k + 1) = 2 ^ k * 2 := pow_succ 2 k
    by_cases hp : probe ((lo + hi) / 2) = true
    · by_cases hdone : (lo + hi) / 2 + 1 = hi
      · refine ⟨(lo + hi) / 2, 1, ?_, by omega, by omega, by omega,
          Or.inr hp, ?_⟩
        · simp [cmvLoop, hp, hdone]
        · rw [hdone]; exact hhi
      · obtain ⟨r, n, heq, hn, hr1, hr2, hr3, hr4⟩ :=
          ih ((lo + hi) / 2) hi f (by omega) (by omega) (by omega)
            (Or.inr hp) hhi
        refine ⟨r, n + 1, ?_, by omega, by omega, hr2, hr3, hr4⟩
        simp [cmvLoop, hp, hdone, heq]
    · have hpf : probe ((lo + hi) / 2) = false := by simpa using hp
      by_cases hdone : lo + 1 = (lo + hi) / 2
      · refine ⟨lo, 1, ?_, by omega, le_refl lo, by omega, hlo, ?_⟩
        · simp [cmvLoop, hpf, hdone]
        · rw [hdone]; exact Or.inr hpf
      · obtain ⟨r, n, heq, hn, hr1, hr2, hr3, hr4⟩ :=
          ih lo ((lo + hi) / 2) f (by omega) (by omega) (by omega)
            hlo (Or.inr hpf)
        refine ⟨r, n + 1, ?_, by omega, hr1, by omega, hr3, hr4⟩
        simp [cmvLoop, hpf, hdone, heq]

/-- Claim C8 as amended: the width discovery terminates after at most 33
probes (not 32: the extra probe is the initial one at width 2 to the 32
minus 1, before the interval is first halved), and when the probe
predicate is downward closed the final max_varchar value is the greatest
width below 2 to the 32 at which the probe succeeds, or 0 when every
probed width fails. -/
theorem configure_max_varchar_spec (probe : Nat → Bool) (fuel : Nat)
    (hf : 33 ≤ fuel) :
    ∃ r n, configure_max_varchar probe fuel = some (r, n) ∧ n ≤ 33 ∧
      r < 2 ^ 32 ∧ (r = 0 ∨ probe r = true) ∧
      ((∀ a b : Nat, a ≤ b → probe b = true → probe a = true) →
        ∀ w, r < w → w < 2 ^ 32 → probe w = false) := by
  obtain ⟨f, rfl⟩ : ∃ f, fuel = f + 1 := ⟨fuel - 1, by omega⟩
  have h32 : (2 : Nat) ^ 32 = 4294967296 := by norm_num
  have hee : 2 ^ 32 - 1 + 1 = 2 ^ 32 := by omega
  unfold configure_max_varchar
  by_cases hp : probe (2 ^ 32 - 1) = true
  · refine ⟨2 ^ 32 - 1, 1, ?_, by omega, by omega, Or.inr hp, ?_⟩
    · have hp95 : probe 4294967295 = true := by
        rw [show (4294967295 : Nat) = 2 ^ 32 - 1 by norm_num]
        exact hp
      simp [cmvLoop, hp95]
    · intro _ w hw1 hw2
      omega
  · have hpf : probe (2 ^ 32 - 1) = false := by simpa using hp
    obtain ⟨r, n, heq, hn, hr1, hr2, hr3, hr4⟩ :=
      cmvLoop_sound probe 32 0 (2 ^ 32 - 1) f (by omega)
        (by norm_num) (by omega) (Or.inl rfl) (Or.inr hpf)
    have hpf95 : probe 4294967295 = false := by
      rw [show (4294967295 : Nat) = 2 ^ 32 - 1 by norm_num]
      exact hpf
    have heq95 : cmvLoop probe f 0 4294967295 2147483647 = some (r, n) := by
      have e1 : ((0 : Nat) + (2 ^ 32 - 1)) / 2 = 2147483647 := by norm_num
      have e2 : (2 : Nat) ^ 32 - 1 = 4294967295 := by norm_num
      rw [e1, e2] at heq
      exact heq
    refine ⟨r, n + 1, ?_, by omega, by omega, hr3, ?_⟩
    · simp [cmvLoop, hpf95, heq95]
    · intro hdc w hw1 hw2
      have hnext : probe (r + 1) = false := by
        rcases hr4 with h | h
        · omega
        · exact h
      by_contra hcon
      have hcw : probe w = true := by
        cases hcw2 : probe w
        · exact absurd hcw2 hcon
        · rfl
      exact absurd (hdc (r + 1) w (by omega) hcw) (by simp [hnext])

/-- Claim C8 counterexample: with the downward-closed probe that succeeds
exactly at widths up to 4294967294, the search does not finish within 32
probes (32 units of fuel are exhausted) and takes exactly 33 probes, so
the bound of at most 32 probes in the claim is false. -/
theorem max_varchar_probe_counterexample :
    configure_max_varchar (fun w => decide (w ≤ 4294967294)) 32 = none ∧
    configure_max_varchar (fun w => decide (w ≤ 4294967294)) 33 =
      some (4294967294, 33) := by
  exact ⟨rfl, rfl⟩

/-- Claim C8 amended witness: the spec theorem at the concrete probe
succeeding exactly up to width 100, with fuel 33. -/
theorem configure_max_varchar_spec_witness :
    ∃ r n, configure_max_varchar (fun w => decide (w ≤ 100)) 33 =
        some (r, n) ∧ n ≤ 33 ∧ r < 2 ^ 32 ∧
      (r = 0 ∨ (decide (r ≤ 100) : Bool) = true) ∧
      ((∀ a b : Nat, a ≤ b → (decide (b ≤ 100) : Bool) = true →
          (decide (a ≤ 100) : Bool) = true) →
        ∀ w, r < w → w < 2 ^ 32 → (decide (w ≤ 100) : Bool) = false) :=
  configure_max_varchar_spec (fun w => decide (w ≤ 100)) 33 (by omega)
